import Mathlib

/-!
Verification development for the crawl operator of the trieve server
(`server/src/operators/crawl_operator.rs`): the paginated result-aggregation
loop against the external crawl provider, the crawl-request lifecycle
operations, and the heading-anchored HTML segmentation.

External effects (HTTP transport, the SQL store, the work queue) are embedded
by explicit state passing: the provider is a function from URL to a fetch
outcome, the request table is a list of rows, and connection failures are a
boolean parameter.
-/

namespace TrieveCrawl

/-- UUIDs (`uuid::Uuid`) are modelled as plain strings. -/
abbrev Uuid := String

/-- `uuid::Uuid::nil()` — the reserved all-zero job id. -/
def nilUuid : Uuid := "00000000-0000-0000-0000-000000000000"

/-- The `ServiceError` variants reachable from `crawl_operator.rs`
(the formatted string payloads are elided; only the variant matters to the
caller-visible error taxonomy). -/
inductive ServiceError where
  | internalServerError
  | badRequest
  | notFound
  deriving DecidableEq

/-- `Status` of an `IngestResult` (serde `rename_all = "lowercase"`). -/
inductive Status where
  | Scraping
  | Completed
  | Failed
  | Cancelled
  deriving DecidableEq

/-- `Sitemap` metadata entry. -/
structure Sitemap where
  changefreq : String
  deriving DecidableEq

/-- `Metadata`: passthrough page metadata carried on each document. -/
structure Metadata where
  title : Option String := none
  description : Option String := none
  language : Option String := none
  keywords : Option String := none
  robots : Option String := none
  og_title : Option String := none
  og_description : Option String := none
  og_url : Option String := none
  og_image : Option String := none
  og_audio : Option String := none
  og_determiner : Option String := none
  og_locale : Option String := none
  og_locale_alternate : Option (List String) := none
  og_site_name : Option String := none
  og_video : Option String := none
  dc_terms_created : Option String := none
  dc_date_created : Option String := none
  dc_date : Option String := none
  dc_terms_type : Option String := none
  dc_type : Option String := none
  dc_terms_audience : Option String := none
  dc_terms_subject : Option String := none
  dc_subject : Option String := none
  dc_description : Option String := none
  dc_terms_keywords : Option String := none
  modified_time : Option String := none
  published_time : Option String := none
  article_tag : Option String := none
  article_section : Option String := none
  source_url : Option String := none
  status_code : Option Nat := none
  error : Option String := none
  site_map : Option Sitemap := none
  deriving DecidableEq

/-- `Document`: one crawled page as returned by the provider. -/
structure Document where
  markdown : Option String := none
  extract : Option String := none
  html : Option String := none
  raw_html : Option String := none
  links : Option (List String) := none
  screenshot : Option String := none
  metadata : Metadata := {}
  deriving DecidableEq

/-- `IngestResult`: the provider's status+data payload for one page of a job.
The `u32` counters are modelled as `Nat` (they are carried through, never
computed with). -/
structure IngestResult where
  status : Status
  completed : Nat
  total : Nat
  credits_used : Nat
  expires_at : String
  next : Option String
  data : Option (List (Option Document))
  deriving DecidableEq

/-- Fuel-indexed core of Rust's `str::replace` (replace every non-overlapping
occurrence of `pat`, scanning left to right). The fuel is the length of the
subject string, which suffices for any non-empty pattern. -/
def replaceAllF : Nat → List Char → List Char → List Char → List Char
  | 0, s, _, _ => s
  | _ + 1, [], _, _ => []
  | f + 1, a :: rest, pat, rep =>
    if pat.isPrefixOf (a :: rest) then
      rep ++ replaceAllF f ((a :: rest).drop pat.length) pat rep
    else
      a :: replaceAllF f rest pat rep

/-- Rust's `str::replace(pat, rep)`. -/
def rustReplace (s pat rep : String) : String :=
  String.mk (replaceAllF s.data.length s.data pat.data rep.data)

/-- The final `IngestResult` assembled at the end of `get_crawl_from_firecrawl`:
the last page's scalar fields, `next` cleared, `data` replaced by the full
accumulated document list. -/
def assembleResult (r : IngestResult) (docs : List (Option Document)) : IngestResult :=
  { status := r.status
    completed := r.completed
    total := r.total
    credits_used := r.credits_used
    expires_at := r.expires_at
    next := none
    data := some docs }

/-- The `while resp.is_none()` loop of `get_crawl_from_firecrawl`. `fetch`
abstracts one GET of a page (transport error, non-success HTTP status and an
undecodable body are all collapsed into the error case, as in the source,
which maps each of the three to an `InternalServerError` return). The `Nat`
argument is fuel bounding the number of iterations; `none` means the loop was
still running when the fuel ran out (the source loop has no built-in bound). -/
def getCrawlLoop (fetch : String → Except ServiceError IngestResult) :
    Nat → String → List (Option Document) → Option (Except ServiceError IngestResult)
  | 0, _, _ => none
  | fuel + 1, url, collected =>
    match fetch url with
    | .error e => some (.error e)
    | .ok ingest =>
      if ingest.status ≠ Status.Completed then
        some (.ok ingest)
      else
        let collected2 := collected ++ ingest.data.getD []
        match ingest.next with
        | some nxt =>
          let rewritten := rustReplace nxt "https://" "http://"
          if rewritten = url then
            some (.ok (assembleResult ingest collected2))
          else
            getCrawlLoop fetch fuel rewritten collected2
        | none => some (.ok (assembleResult ingest collected2))

/-- `get_crawl_from_firecrawl(scrape_id)`: fetch the job's pages starting at
`{base}/v1/crawl/{scrape_id}` and aggregate them. -/
def get_crawl_from_firecrawl (fetch : String → Except ServiceError IngestResult)
    (firecrawl_base scrape_id : String) (fuel : Nat) :
    Option (Except ServiceError IngestResult) :=
  getCrawlLoop fetch fuel (firecrawl_base ++ "/v1/crawl/" ++ scrape_id) []

/-- A JSON scalar inside the provider's submit response: either a string or
not a string (all that `Value::as_str` distinguishes). -/
inductive JsonVal where
  | str (s : String)
  | notStr
  deriving DecidableEq

/-- A decoded `serde_json::Value` body: an object (key lookup by `get`) or any
non-object value (on which `get("id")` yields nothing). -/
inductive Json where
  | obj (fields : List (String × JsonVal))
  | nonObj
  deriving DecidableEq

/-- `serde_json::Value::get(key)` — first binding of the key in an object. -/
def Json.get : Json → String → Option JsonVal
  | .obj fields, k => (fields.find? (fun p => p.1 == k)).map (fun p => p.2)
  | .nonObj, _ => none

/-- `Value::as_str`. -/
def JsonVal.as_str : JsonVal → Option String
  | .str s => some s
  | .notStr => none

/-- ASCII hexadecimal digit. -/
def isHexDigit (c : Char) : Bool :=
  c.isDigit || ('a' ≤ c && c ≤ 'f') || ('A' ≤ c && c ≤ 'F')

/-- Shape check for the canonical hyphenated UUID form `8-4-4-4-12`. -/
def uuidShapeAux : Nat → List Char → Bool
  | i, [] => i == 36
  | i, c :: r =>
    (if i == 8 || i == 13 || i == 18 || i == 23 then c == '-' else isHexDigit c) &&
      uuidShapeAux (i + 1) r

/-- Model of `str::parse::<uuid::Uuid>()`: succeeds exactly on a well-formed
hyphenated UUID string. -/
def parseUuid (s : String) : Option Uuid :=
  if uuidShapeAux 0 s.data then some s else none

/-- The provider's reply to the submit POST: whether the HTTP status was a
success, and the decoded JSON body (`none` models an undecodable body). -/
structure ProviderResponse where
  success : Bool
  body : Option Json
  deriving DecidableEq

/-- Outcome of `crawl_site`: an `Ok` job id, an `Err`, or a panic (the chain
of `.unwrap()` calls on the id extraction aborting the task). -/
inductive CrawlSiteOutcome where
  | ok (id : Uuid)
  | err (e : ServiceError)
  | panicked
  deriving DecidableEq

/-- `crawl_site(crawl_options)`: POST the job, then extract the job id with
`json.get("id").unwrap().as_str().unwrap().parse().unwrap()`. The POST itself
and the serialized options are abstracted into the `resp` the provider gives
back; a transport-level failure is not modelled here (it is an `Err` before
any of this code runs). -/
def crawl_site (resp : ProviderResponse) : CrawlSiteOutcome :=
  if resp.success then
    match resp.body with
    | none => .err .internalServerError
    | some json =>
      match json.get "id" with
      | none => .panicked
      | some v =>
        match v.as_str with
        | none => .panicked
        | some s =>
          match parseUuid s with
          | none => .panicked
          | some u => .ok u
  else
    .err .internalServerError

/-- `CrawlInterval` (from `handlers::chunk_handler`). -/
inductive CrawlInterval where
  | Daily
  | Weekly
  | Monthly
  deriving DecidableEq

/-- Modelled from the spec: `ScrapeOptions` (in `data::models`, not under
`src/`) is a tagged variant where one case — the feed-based/Shopify mode —
bypasses the external crawler; every other case is collapsed into `Other`. -/
inductive ScrapeOptions where
  | Shopify
  | Other
  deriving DecidableEq

/-- Modelled from the spec: `CrawlOptions` (in `data::models`, not under
`src/`) with the fields `crawl_operator.rs` reads — `site_url`, `interval`,
`scrape_options`; the remaining provider-specific fields are opaque and
irrelevant to the operations verified here. -/
structure CrawlOptions where
  site_url : Option String := none
  interval : Option CrawlInterval := none
  scrape_options : Option ScrapeOptions := none
  deriving DecidableEq

/-- Modelled from the spec: `CrawlStatus` (in `data::models`, not under
`src/`). -/
inductive CrawlStatus where
  | Pending
  | Scraping
  | Completed
  | Failed
  | Cancelled
  deriving DecidableEq

/-- A `CrawlRequest` row (timestamps and the interval are seconds as `Nat`). -/
structure CrawlRequest where
  id : Uuid
  url : String
  status : CrawlStatus
  interval : Nat
  next_crawl_at : Nat
  crawl_options : CrawlOptions
  scrape_id : Uuid
  dataset_id : Uuid
  created_at : Nat
  attempt_number : Nat
  deriving DecidableEq

/-- `create_crawl_request`: build the new row (interval Daily→24h, Weekly→7d,
Monthly→30d, default Daily; status Pending; `next_crawl_at = now`) and return
it together with the value the function returns (`new_crawl_request.scrape_id`).
The SQL insert and the queue push are embedded as the returned row. -/
def create_crawl_request (crawl_options : CrawlOptions) (dataset_id scrape_id : Uuid)
    (freshId : Uuid) (now : Nat) : CrawlRequest × Uuid :=
  let interval : Nat :=
    match crawl_options.interval with
    | some .Daily => 60 * 60 * 24
    | some .Weekly => 60 * 60 * 24 * 7
    | some .Monthly => 60 * 60 * 24 * 30
    | none => 60 * 60 * 24
  let r : CrawlRequest :=
    { id := freshId
      url := crawl_options.site_url.getD ""
      status := .Pending
      interval := interval
      next_crawl_at := now
      crawl_options := crawl_options
      scrape_id := scrape_id
      dataset_id := dataset_id
      created_at := now
      attempt_number := 0 }
  (r, r.scrape_id)

/-- `crawl(crawl_options, …, dataset_id)`: pick the nil id for the Shopify
(feed-based) mode, otherwise use the Submission client's outcome (`provider`,
whose error is mapped to `BadRequest`); then persist via
`create_crawl_request` and return the job id. `persistOk` models the
insert/queue effects succeeding; the persisted row is returned alongside the
job id. -/
def crawl (crawl_options : CrawlOptions) (provider : Except String Uuid)
    (persistOk : Bool) (dataset_id freshId : Uuid) (now : Nat) :
    Except ServiceError (Uuid × CrawlRequest) :=
  let scrapeOutcome : Except ServiceError Uuid :=
    match crawl_options.scrape_options with
    | some .Shopify => .ok nilUuid
    | _ =>
      match provider with
      | .ok u => .ok u
      | .error _ => .error .badRequest
  match scrapeOutcome with
  | .error e => .error e
  | .ok scrape_id =>
    if persistOk then
      let pr := create_crawl_request crawl_options dataset_id scrape_id freshId now
      .ok (pr.2, pr.1)
    else
      .error .internalServerError

/-- `get_crawl_request(crawl_id)`: `crawl_requests.filter(scrape_id ==
crawl_id).first()`, with every diesel error — including `NotFound` when no row
matches — mapped to `InternalServerError`. `connOk` models the pool
connection. -/
def get_crawl_request (db : List CrawlRequest) (connOk : Bool) (crawl_id : Uuid) :
    Except ServiceError CrawlRequest :=
  if connOk then
    match (db.filter (fun r => r.scrape_id == crawl_id)).head? with
    | some r => .ok r
    | none => .error .internalServerError
  else
    .error .internalServerError

/-- `get_crawl_request_by_dataset_id_query(dataset_id)`: same lookup keyed on
`dataset_id` but run through `.optional()`, so an absent row is `Ok(None)`. -/
def get_crawl_request_by_dataset_id_query (db : List CrawlRequest) (connOk : Bool)
    (dataset_id : Uuid) : Except ServiceError (Option CrawlRequest) :=
  if connOk then
    .ok ((db.filter (fun r => r.dataset_id == dataset_id)).head?)
  else
    .error .internalServerError

/-- `update_crawl_status(crawl_id, status)`: an unconditional filtered UPDATE;
diesel's `execute` returns the affected row count and zero rows is still `Ok`.
The resulting table is returned. -/
def update_crawl_status (db : List CrawlRequest) (connOk : Bool) (crawl_id : Uuid)
    (status : CrawlStatus) : Except ServiceError (List CrawlRequest) :=
  if connOk then
    .ok (db.map (fun r => if r.scrape_id == crawl_id then { r with status := status } else r))
  else
    .error .internalServerError

/-- `update_next_crawl_at(crawl_id, next_crawl_at)`: the other single-column
filtered UPDATE. -/
def update_next_crawl_at (db : List CrawlRequest) (connOk : Bool) (crawl_id : Uuid)
    (next_crawl_at : Nat) : Except ServiceError (List CrawlRequest) :=
  if connOk then
    .ok (db.map (fun r =>
      if r.scrape_id == crawl_id then { r with next_crawl_at := next_crawl_at } else r))
  else
    .error .internalServerError

/-- ASCII whitespace, as used by `str::trim` / `split_whitespace` on the ASCII
inputs handled here. -/
def isWs (c : Char) : Bool :=
  c == ' ' || c == '\t' || c == '\n' || c == '\r'

/-- Rust's `str::trim`: strip whitespace from both ends. -/
def trimL (s : List Char) : List Char :=
  ((s.dropWhile isWs).reverse.dropWhile isWs).reverse

/-- The `h` of a heading tag, case-insensitively (the regex is `(?i)`). -/
def isHeadChar (c : Char) : Bool :=
  c == 'h' || c == 'H'

/-- A heading level digit `1`–`6`. -/
def isHeadDigit (c : Char) : Bool :=
  '1' ≤ c && c ≤ '6'

/-- Scan for the `>` closing a heading tag: the regex tail `.*?>` matches up
to the first `>`, failing if a newline (which `.` cannot match) comes first.
Returns the characters consumed before the `>` and the rest after it. -/
def scanClose : List Char → Option (List Char × List Char)
  | [] => none
  | a :: r =>
    if a = '>' then some ([], r)
    else if a = '\n' then none
    else (scanClose r).map (fun x => (a :: x.1, x.2))

/-- A match of `(?i)<h[1-6].*?>` anchored at the head of the list: returns the
matched tag text and the remainder. -/
def headAt : List Char → Option (List Char × List Char)
  | a :: c :: d :: rest =>
    if a = '<' ∧ isHeadChar c ∧ isHeadDigit d then
      match scanClose rest with
      | some (ins, after) => some (a :: c :: d :: (ins ++ ['>']), after)
      | none => none
    else none
  | _ => none

/-- The leftmost match of the heading-tag regex: the text before the match,
the matched tag, and the remainder (`Regex::find` semantics: earliest start,
and at that start the lazy `.*?` takes the first closing `>`). -/
def findHead : List Char → Option (List Char × List Char × List Char)
  | [] => none
  | a :: rest =>
    match headAt (a :: rest) with
    | some (tag, after) => some ([], tag, after)
    | none => (findHead rest).map (fun x => (a :: x.1, x.2.1, x.2.2))

/-- All matches (`find_iter`), as the leading text plus a list of
(matched tag, following text) pairs. Fuel-indexed; each found match consumes
at least four characters, so the subject length is always enough fuel. -/
def scanHeadsF : Nat → List Char → List Char × List (List Char × List Char)
  | 0, s => (s, [])
  | fuel + 1, s =>
    match findHead s with
    | none => (s, [])
    | some (pre, tag, rest) =>
      let pr := scanHeadsF fuel rest
      (pre, (tag, pr.1) :: pr.2)

/-- All heading-tag matches of the subject. -/
def scanHeads (s : List Char) : List Char × List (List Char × List Char) :=
  scanHeadsF s.length s

/-- Modelled from the spec: `convert_html_to_text` (in
`operators::parse_operator`, not under `src/`) strips the HTML markup,
leaving the plain text. The `Bool` flag is "currently inside a tag". -/
def stripTagsAux : Bool → List Char → List Char
  | _, [] => []
  | true, c :: r => if c = '>' then stripTagsAux false r else stripTagsAux true r
  | false, c :: r => if c = '<' then stripTagsAux true r else c :: stripTagsAux false r

/-- `split_whitespace().count()`: number of maximal non-whitespace runs. The
`Bool` flag is "previous character was part of a word". -/
def countWordsAux : Bool → List Char → Nat
  | _, [] => 0
  | inWord, c :: r =>
    if isWs c then countWordsAux false r
    else (if inWord then 0 else 1) + countWordsAux true r

/-- Plain-text word count of a chunk:
`convert_html_to_text(chunk).split_whitespace().count()`. -/
def wordCount (s : List Char) : Nat :=
  countWordsAux false (stripTagsAux false s)

/-- Does the list begin with the closing tag `</h𝑑>` of heading level `d`
(case-insensitive `h`)? Used by the first-heading extraction model. -/
def closesHead (d : Char) : List Char → Bool
  | a :: b :: c :: e :: _ => a = '<' && b = '/' && isHeadChar c && e = d
  | _ => false

/-- Text content of a heading element, scraper-style: collect characters
after the opening tag up to the matching `</h𝑑`, dropping any nested markup.
The `Bool` flag is "currently inside a nested tag". -/
def collectHeadText (d : Char) : Bool → List Char → List Char
  | _, [] => []
  | true, a :: r => if a = '>' then collectHeadText d false r else collectHeadText d true r
  | false, a :: r =>
    if closesHead d (a :: r) then []
    else if a = '<' then collectHeadText d true r
    else a :: collectHeadText d false r

/-- `extract_first_heading(html)`: the text of the first `h1`–`h6` element of
the fragment, or the empty string if there is none. The scraper parse/select
pipeline (an external crate) is modelled by locating the first opening
heading tag and collecting its text content. -/
def extractFirstHeading (s : List Char) : List Char :=
  match findHead s with
  | none => []
  | some (_, tag, rest) =>
    match tag with
    | _ :: _ :: d :: _ => collectHeadText d false rest
    | _ => []

/-- The short-chunk carry-forward merge: `format!("{} {}", prev, trimmed)`. -/
def mergeShort : Option (List Char) → List Char → List Char
  | none, t => t
  | some p, t => p ++ ' ' :: t

/-- The body of `chunk_html`'s `for cap in re.find_iter(html)` loop plus the
end-of-input flush, as a fold over the matches. `current` enters an iteration
holding the previous tag plus the text up to this match (initially the text
before the first match); `short` is the held short chunk. On the empty token
list the flush runs: a non-empty tail is merged and always emitted; otherwise
a held short chunk is emitted as-is. -/
def chunkGo : List (List Char × List Char) → List Char → Option (List Char) →
    List (List Char × List Char)
  | [], current, short =>
    if current = [] then
      match short with
      | some s => [(extractFirstHeading s, s)]
      | none => []
    else
      let cur := mergeShort short (trimL current)
      [(extractFirstHeading cur, cur)]
  | t :: rest, current, short =>
    if current = [] then
      chunkGo rest (t.1 ++ t.2) short
    else
      let cur := mergeShort short (trimL current)
      if 5 < wordCount cur then
        (extractFirstHeading cur, cur) :: chunkGo rest (t.1 ++ t.2) none
      else
        chunkGo rest (t.1 ++ t.2) (some cur)

/-- `chunk_html(html)`: split on opening heading tags and emit
(heading text, chunk html) pairs with short-chunk carry-forward. -/
def chunk_html (html : String) : List (String × String) :=
  let pr := scanHeads html.data
  (chunkGo pr.2 pr.1 none).map (fun p => (String.mk p.1, String.mk p.2))

/-- Companion predicate to `chunkGo`: every candidate evaluated before the
end-of-input flush (each fragment with any held short chunk merged in) has at
most five plain-text words, i.e. the loop defers every candidate. -/
def allDeferred : List (List Char × List Char) → List Char → Option (List Char) → Bool
  | [], _, _ => true
  | t :: rest, current, short =>
    if current = [] then
      allDeferred rest (t.1 ++ t.2) short
    else
      let cur := mergeShort short (trimL current)
      decide (wordCount cur ≤ 5) && allDeferred rest (t.1 ++ t.2) (some cur)

/-- Companion accumulator to `chunkGo`: the space-joined accumulation of the
trimmed fragments, i.e. the candidate the flush would evaluate if every
earlier candidate was deferred (`none` only when the input was empty). -/
def accumJoin : List (List Char × List Char) → List Char → Option (List Char) →
    Option (List Char)
  | [], current, short =>
    if current = [] then short else some (mergeShort short (trimL current))
  | t :: rest, current, short =>
    if current = [] then
      accumJoin rest (t.1 ++ t.2) short
    else
      accumJoin rest (t.1 ++ t.2) (some (mergeShort short (trimL current)))

/-- A chain of Completed pages reachable from a start URL: `fetch u` yields a
Completed page, and either it has no `next` cursor (a final page), or the
rewritten cursor differs from `u` and the chain continues there. The last
page and the per-page document lists (in fetch order) are recorded. -/
inductive CompletedChain (fetch : String → Except ServiceError IngestResult) :
    String → IngestResult → List (List (Option Document)) → Prop
  | last {u : String} {p : IngestResult} :
      fetch u = .ok p → p.status = .Completed → p.next = none →
      CompletedChain fetch u p [p.data.getD []]
  | step {u n : String} {p plast : IngestResult} {ds : List (List (Option Document))} :
      fetch u = .ok p → p.status = .Completed → p.next = some n →
      rustReplace n "https://" "http://" ≠ u →
      CompletedChain fetch (rustReplace n "https://" "http://") plast ds →
      CompletedChain fetch u plast (p.data.getD [] :: ds)

/-! ## Helper lemmas and fixtures -/

/-- Running the fetch loop over a chain of Completed pages appends every
page's document list to the accumulator, in fetch order, and assembles the
last page with `next` cleared. Any fuel at least the chain length suffices. -/
theorem getCrawlLoop_chain {fetch : String → Except ServiceError IngestResult}
    {u : String} {plast : IngestResult} {ds : List (List (Option Document))}
    (h : CompletedChain fetch u plast ds) :
    ∀ (fuel : Nat) (acc : List (Option Document)),
      getCrawlLoop fetch (fuel + ds.length) u acc =
        some (.ok (assembleResult plast (acc ++ ds.flatten))) := by
  induction h with
  | last hf hc hn =>
    intro fuel acc
    simp [getCrawlLoop, hf, hc, hn]
  | step hf hc hn hne _ ih =>
    intro fuel acc
    simp only [List.length_cons, ← Nat.add_assoc]
    simp only [getCrawlLoop, hf, hc, hn, ne_eq, not_true_eq_false, if_false, ite_false]
    simp only [if_neg hne]
    rw [ih fuel]
    simp [List.append_assoc]

/-- Total length of a concatenation of `n` lists of length `k` each. -/
theorem flatten_length_of_all_eq {α : Type} {k : Nat} :
    ∀ (ds : List (List α)), (∀ d ∈ ds, d.length = k) →
      ds.flatten.length = ds.length * k
  | [], _ => by simp
  | d :: t, h => by
    have hd : d.length = k := h d (by simp)
    have ht := flatten_length_of_all_eq t (fun x hx => h x (by simp [hx]))
    simp [hd, ht, Nat.succ_mul, Nat.add_comm]

/-- A document with no content, used by the concrete witnesses. -/
def wDoc : Document := {}

/-- First page of the witness chain for the aggregation loop. -/
def wPage1 : IngestResult :=
  { status := .Completed, completed := 1, total := 2, credits_used := 3,
    expires_at := "e1", next := some "https://h/p2", data := some [some wDoc] }

/-- Second (final) page of the witness chain. -/
def wPage2 : IngestResult :=
  { status := .Completed, completed := 2, total := 2, credits_used := 4,
    expires_at := "e2", next := none, data := some [some wDoc] }

/-- A concrete provider serving the two-page witness chain. -/
def wFetch : String → Except ServiceError IngestResult := fun u =>
  if u = "b/v1/crawl/j" then .ok wPage1
  else if u = "http://h/p2" then .ok wPage2
  else .error .internalServerError

/-! ## Claims -/

/-- C1: for a chain of N Completed pages of k documents each, reachable from
the job's start URL, `get_crawl_from_firecrawl` returns an `IngestResult`
whose `data` is exactly the N·k document slots concatenated in fetch order,
whose `next` is cleared to `none`, and whose scalar fields are those of the
last page fetched. -/
theorem c1_fetchAll_completed_chain
    (fetch : String → Except ServiceError IngestResult) (base id : String)
    (plast : IngestResult) (ds : List (List (Option Document))) (k fuel : Nat)
    (hch : CompletedChain fetch (base ++ "/v1/crawl/" ++ id) plast ds)
    (hk : ∀ d ∈ ds, d.length = k) :
    get_crawl_from_firecrawl fetch base id (fuel + ds.length) =
      some (.ok { status := plast.status, completed := plast.completed,
                  total := plast.total, credits_used := plast.credits_used,
                  expires_at := plast.expires_at, next := none,
                  data := some ds.flatten }) ∧
    ds.flatten.length = ds.length * k := by
  constructor
  · have hmain := getCrawlLoop_chain hch fuel []
    simpa [get_crawl_from_firecrawl, assembleResult] using hmain
  · exact flatten_length_of_all_eq ds hk

/-- Witness for C1: a concrete two-page chain with one document per page
yields the two concatenated slots, cleared `next`, and the second page's
scalar fields. -/
theorem c1_witness :
    get_crawl_from_firecrawl wFetch "b" "j" (0 + 2) =
      some (.ok { status := Status.Completed, completed := 2, total := 2,
                  credits_used := 4, expires_at := "e2", next := none,
                  data := some [some wDoc, some wDoc] }) ∧
    ([[some wDoc], [some wDoc]] : List (List (Option Document))).flatten.length = 2 * 1 :=
  c1_fetchAll_completed_chain wFetch "b" "j" wPage2 [[some wDoc], [some wDoc]] 1 0
    (@CompletedChain.step wFetch ("b" ++ "/v1/crawl/" ++ "j") "https://h/p2" wPage1 wPage2
      [[some wDoc]] rfl rfl rfl (by decide)
      (@CompletedChain.last wFetch (rustReplace "https://h/p2" "https://" "http://") wPage2
        rfl rfl rfl))
    (by decide)

/-- C2: when a Completed page carries a `next` cursor whose secure→insecure
rewrite equals the URL just fetched, the loop stops with the current page as
final — the result is fully determined by that one page (for every fetch
function agreeing on it and every remaining fuel), so no further fetch
happens. -/
theorem c2_cycle_guard (fetch : String → Except ServiceError IngestResult)
    (url : String) (acc : List (Option Document)) (p : IngestResult) (n : String)
    (fuel : Nat) (hf : fetch url = .ok p) (hc : p.status = .Completed)
    (hn : p.next = some n) (heq : rustReplace n "https://" "http://" = url) :
    getCrawlLoop fetch (fuel + 1) url acc =
      some (.ok (assembleResult p (acc ++ p.data.getD []))) := by
  simp [getCrawlLoop, hf, hc, hn, heq]

/-- A Completed page whose `next` cursor rewrites back to its own URL. -/
def c2Page : IngestResult :=
  { status := .Completed, completed := 1, total := 1, credits_used := 1,
    expires_at := "x", next := some "https://l", data := some [some wDoc] }

/-- A provider that repeats the last page as `next` (the provider bug the
cycle guard defends against). -/
def c2Fetch : String → Except ServiceError IngestResult := fun u =>
  if u = "http://l" then .ok c2Page else .error .internalServerError

/-- Witness for C2: a page at `http://l` whose cursor rewrites to `http://l`
itself terminates the loop with that page as final. -/
theorem c2_witness :
    getCrawlLoop c2Fetch (0 + 1) "http://l" [] =
      some (.ok (assembleResult c2Page ([] ++ c2Page.data.getD []))) :=
  c2_cycle_guard c2Fetch "http://l" [] c2Page "https://l" 0 rfl rfl rfl (by decide)

/-- C3: a fetched page whose status is not Completed is returned immediately,
unmodified, as an `Ok` result — whatever documents were already accumulated
(`acc` is arbitrary) and however much fuel remains. -/
theorem c3_noncompleted_returned_ok (fetch : String → Except ServiceError IngestResult)
    (url : String) (acc : List (Option Document)) (p : IngestResult) (fuel : Nat)
    (hf : fetch url = .ok p) (hs : p.status ≠ .Completed) :
    getCrawlLoop fetch (fuel + 1) url acc = some (.ok p) := by
  simp [getCrawlLoop, hf, hs]

/-- A page still being scraped, served by a concrete provider. -/
def c3Page : IngestResult :=
  { status := .Scraping, completed := 0, total := 5, credits_used := 0,
    expires_at := "y", next := some "https://m", data := none }

/-- A provider whose job at URL `s` is still in progress. -/
def c3Fetch : String → Except ServiceError IngestResult := fun u =>
  if u = "s" then .ok c3Page else .error .internalServerError

/-- Witness for C3: the Scraping page comes back as-is (its `next` and `data`
untouched) even with a non-empty accumulator. -/
theorem c3_witness :
    getCrawlLoop c3Fetch (0 + 1) "s" [some wDoc] = some (.ok c3Page) :=
  c3_noncompleted_returned_ok c3Fetch "s" [some wDoc] c3Page 0 rfl (by decide)

/-- C4 counterexample: a success-status response whose JSON object has no
`id` key makes `crawl_site` panic (the `.unwrap()` chain), not return an
`Err` — the claim says such a response is reported as an `Err` result rather
than crashing. -/
theorem c4_counterexample :
    crawl_site { success := true, body := some (Json.obj []) } =
      CrawlSiteOutcome.panicked := by
  decide

/-- C4 (amended): a non-success HTTP status or an undecodable body is
reported as an `Err`; but a success response whose body has a missing `id`
key, a non-string `id`, or a string `id` that is not a UUID makes
`crawl_site` panic instead of returning an `Err`. -/
theorem c4_amended_submit_errors (resp : ProviderResponse) :
    (resp.success = false → crawl_site resp = .err .internalServerError) ∧
    (resp.success = true → resp.body = none →
      crawl_site resp = .err .internalServerError) ∧
    (∀ j, resp.success = true → resp.body = some j → j.get "id" = none →
      crawl_site resp = .panicked) ∧
    (∀ j v, resp.success = true → resp.body = some j → j.get "id" = some v →
      v.as_str = none → crawl_site resp = .panicked) ∧
    (∀ j s, resp.success = true → resp.body = some j →
      j.get "id" = some (JsonVal.str s) → parseUuid s = none →
      crawl_site resp = .panicked) := by
  refine ⟨?_, ?_, ?_, ?_, ?_⟩ <;> intros <;> simp_all [crawl_site, JsonVal.as_str]

/-- Witness for C4 (amended): a success response whose `id` is not a string
panics. -/
theorem c4_witness :
    crawl_site { success := true, body := some (Json.obj [("id", JsonVal.notStr)]) } =
      CrawlSiteOutcome.panicked :=
  (c4_amended_submit_errors
      { success := true, body := some (Json.obj [("id", JsonVal.notStr)]) }).2.2.2.1
    (Json.obj [("id", JsonVal.notStr)]) JsonVal.notStr rfl rfl rfl rfl

/-- C5 counterexample: with a healthy connection and no matching row, the
job-id lookup returns exactly the `InternalServerError` that a connection
failure returns — absence IS conflated with an internal-server fault. -/
theorem c5_counterexample :
    get_crawl_request [] true "j1" = .error ServiceError.internalServerError ∧
    get_crawl_request [] false "j1" = .error ServiceError.internalServerError :=
  ⟨rfl, rfl⟩

/-- C5 (amended): the dataset lookup reports absence as a normal `Ok none`;
the job-id lookup, however, maps diesel's not-found onto
`InternalServerError`, indistinguishable from a connectivity failure. -/
theorem c5_amended_lookup_absence (db : List CrawlRequest) (dsid jid : Uuid) :
    ((∀ r ∈ db, r.dataset_id ≠ dsid) →
      get_crawl_request_by_dataset_id_query db true dsid = .ok none) ∧
    ((∀ r ∈ db, r.scrape_id ≠ jid) →
      get_crawl_request db true jid = .error .internalServerError) := by
  constructor
  · intro h
    have hf : db.filter (fun r => r.dataset_id == dsid) = [] := by
      rw [List.filter_eq_nil_iff]
      intro a ha
      simpa using h a ha
    simp [get_crawl_request_by_dataset_id_query, hf]
  · intro h
    have hf : db.filter (fun r => r.scrape_id == jid) = [] := by
      rw [List.filter_eq_nil_iff]
      intro a ha
      simpa using h a ha
    simp [get_crawl_request, hf]

/-- A concrete persisted row used by the lookup/update witnesses. -/
def wRow : CrawlRequest :=
  { id := "r1", url := "https://site", status := .Pending, interval := 86400,
    next_crawl_at := 0, crawl_options := {}, scrape_id := "s1", dataset_id := "d1",
    created_at := 0, attempt_number := 0 }

/-- Witness for C5 (amended) on a one-row table probed with absent ids. -/
theorem c5_witness :
    get_crawl_request_by_dataset_id_query [wRow] true "d2" = .ok none ∧
    get_crawl_request [wRow] true "s2" = .error .internalServerError :=
  ⟨(c5_amended_lookup_absence [wRow] "d2" "s2").1 (by decide),
   (c5_amended_lookup_absence [wRow] "d2" "s2").2 (by decide)⟩

/-- C10: the single-column updates succeed even when no row carries the job
id (a zero-row UPDATE leaves the table unchanged and is still `Ok`); they
fail only on connection failure. -/
theorem c10_zero_row_update_ok (db : List CrawlRequest) (jid : Uuid)
    (st : CrawlStatus) (ts : Nat) (h : ∀ r ∈ db, r.scrape_id ≠ jid) :
    update_crawl_status db true jid st = .ok db ∧
    update_next_crawl_at db true jid ts = .ok db ∧
    update_crawl_status db false jid st = .error .internalServerError ∧
    update_next_crawl_at db false jid ts = .error .internalServerError := by
  have hmap : ∀ (f : CrawlRequest → CrawlRequest),
      (∀ r ∈ db, f r = r) → db.map f = db := by
    intro f hfix
    induction db with
    | nil => rfl
    | cons a t ih =>
      simp only [List.map_cons, hfix a (by simp)]
      rw [ih (fun r hr => h r (by simp [hr])) (fun r hr => hfix r (by simp [hr]))]
  refine ⟨?_, ?_, rfl, rfl⟩
  · simp only [update_crawl_status, if_true]
    rw [hmap _ (fun r hr => by simp [beq_eq_false_iff_ne.mpr (h r hr)])]
  · simp only [update_next_crawl_at, if_true]
    rw [hmap _ (fun r hr => by simp [beq_eq_false_iff_ne.mpr (h r hr)])]

/-- Witness for C10 on a one-row table probed with an absent job id. -/
theorem c10_witness :
    update_crawl_status [wRow] true "s2" CrawlStatus.Failed = .ok [wRow] ∧
    update_next_crawl_at [wRow] true "s2" 99 = .ok [wRow] ∧
    update_crawl_status [wRow] false "s2" CrawlStatus.Failed =
      .error .internalServerError ∧
    update_next_crawl_at [wRow] false "s2" 99 = .error .internalServerError :=
  c10_zero_row_update_ok [wRow] "s2" CrawlStatus.Failed 99 (by decide)

/-- A successful close scan decomposes its input: the consumed characters,
free of `>` and of newlines, followed by the closing `>`. -/
theorem scanClose_eq_some :
    ∀ {r ins after : List Char}, scanClose r = some (ins, after) →
      r = ins ++ '>' :: after ∧ '\n' ∉ ins ∧ '>' ∉ ins := by
  intro r
  induction r with
  | nil => intro ins after h; simp [scanClose] at h
  | cons a t ih =>
    intro ins after h
    by_cases ha : a = '>'
    · subst ha
      simp [scanClose] at h
      obtain ⟨h1, h2⟩ := h
      subst h1; subst h2
      simp
    · by_cases hn : a = '\n'
      · subst hn; simp [scanClose, ha] at h
      · simp only [scanClose, if_neg ha, if_neg hn, Option.map_eq_some'] at h
        obtain ⟨⟨ins', after'⟩, hsc, heq⟩ := h
        obtain ⟨h1, h2⟩ := Prod.mk.injEq .. ▸ heq
        obtain ⟨hr, hnin, hgin⟩ := ih hsc
        subst h2
        refine ⟨?_, ?_, ?_⟩
        · rw [← h1]; simp [hr]
        · rw [← h1]
          simp only [List.mem_cons, not_or]
          exact ⟨fun hh => hn hh.symm, hnin⟩
        · rw [← h1]
          simp only [List.mem_cons, not_or]
          exact ⟨fun hh => ha hh.symm, hgin⟩

/-- Conversely, a `>`- and newline-free consumed part followed by `>` is
exactly what the close scan finds, whatever comes after. -/
theorem scanClose_append :
    ∀ {ins : List Char}, '\n' ∉ ins → '>' ∉ ins →
      ∀ tail : List Char, scanClose (ins ++ '>' :: tail) = some (ins, tail) := by
  intro ins
  induction ins with
  | nil => intro _ _ tail; simp [scanClose]
  | cons a t ih =>
    intro hn hg tail
    have ha : a ≠ '>' := fun h => hg (by simp [h])
    have hb : a ≠ '\n' := fun h => hn (by simp [h])
    simp only [List.cons_append, scanClose, if_neg ha, if_neg hb]
    rw [show t.append ('>' :: tail) = t ++ '>' :: tail from rfl,
      ih (fun h => hn (by simp [h])) (fun h => hg (by simp [h])) tail]
    rfl

/-- A head-anchored match survives extension of the subject on the right. -/
theorem headAt_extend :
    ∀ {r tag after : List Char}, headAt r = some (tag, after) →
      ∀ ext : List Char, headAt (r ++ ext) = some (tag, after ++ ext) := by
  intro r tag after h ext
  match r, h with
  | a :: c :: d :: rest, h =>
    simp only [headAt] at h
    by_cases hg : a = '<' ∧ isHeadChar c ∧ isHeadDigit d
    · rw [if_pos hg] at h
      cases hsc : scanClose rest with
      | none => rw [hsc] at h; simp at h
      | some x =>
        obtain ⟨ins, aft⟩ := x
        rw [hsc] at h
        simp only [Option.some.injEq, Prod.mk.injEq] at h
        obtain ⟨htag, haft⟩ := h
        obtain ⟨hr, hnin, hgin⟩ := scanClose_eq_some hsc
        have : rest ++ ext = ins ++ '>' :: (aft ++ ext) := by simp [hr]
        simp only [List.cons_append, headAt, if_pos hg, this,
          scanClose_append hnin hgin]
        simp [← htag, ← haft]
    · rw [if_neg hg] at h; simp at h

/-- If some tail of `s` carries a head-anchored match, the leftmost-match
scan finds a match in `s`. -/
theorem findHead_isSome_of_headAt :
    ∀ (l r : List Char), (headAt r).isSome → (findHead (l ++ r)).isSome := by
  intro l
  induction l with
  | nil =>
    intro r h
    match r, h with
    | a :: rest, h =>
      simp only [List.nil_append, findHead]
      cases hh : headAt (a :: rest) with
      | none => rw [hh] at h; simp at h
      | some x => simp
  | cons a t ih =>
    intro r h
    simp only [List.cons_append, findHead]
    cases hh : headAt (a :: (t ++ r)) with
    | none =>
      have := ih r h
      cases hf : findHead (t ++ r) with
      | none => rw [hf] at this; simp at this
      | some x => simp
    | some x => simp

/-- A successful leftmost-match scan exhibits a tail with a head-anchored
match. -/
theorem findHead_isSome_decomp :
    ∀ {s : List Char}, (findHead s).isSome →
      ∃ l r, s = l ++ r ∧ (headAt r).isSome := by
  intro s
  induction s with
  | nil => intro h; simp [findHead] at h
  | cons a t ih =>
    intro h
    simp only [findHead] at h
    cases hh : headAt (a :: t) with
    | some x => exact ⟨[], a :: t, by simp, by simp [hh]⟩
    | none =>
      rw [hh] at h
      simp at h
      obtain ⟨l, r, hlr, hr⟩ := ih h
      exact ⟨a :: l, r, by simp [hlr], hr⟩

/-- `trimL` only removes characters at the two ends. -/
theorem trimL_decomp (s : List Char) : ∃ u v, s = u ++ trimL s ++ v := by
  refine ⟨s.takeWhile isWs, ((s.dropWhile isWs).reverse.takeWhile isWs).reverse, ?_⟩
  have h2 : trimL s ++ ((s.dropWhile isWs).reverse.takeWhile isWs).reverse
      = s.dropWhile isWs := by
    have h3 : (s.dropWhile isWs).reverse.takeWhile isWs ++
        (s.dropWhile isWs).reverse.dropWhile isWs = (s.dropWhile isWs).reverse :=
      List.takeWhile_append_dropWhile isWs ((s.dropWhile isWs).reverse)
    rw [trimL, ← List.reverse_append, h3, List.reverse_reverse]
  rw [List.append_assoc, h2, List.takeWhile_append_dropWhile]

/-- If the subject has no heading-tag match, neither has its trim. -/
theorem findHead_trimL_eq_none {s : List Char} (h : findHead s = none) :
    findHead (trimL s) = none := by
  cases hf : findHead (trimL s) with
  | none => rfl
  | some x =>
    exfalso
    have hsome : (findHead (trimL s)).isSome := by simp [hf]
    obtain ⟨l, r, hlr, hr⟩ := findHead_isSome_decomp hsome
    obtain ⟨u, v, huv⟩ := trimL_decomp s
    cases hh : headAt r with
    | none => rw [hh] at hr; simp at hr
    | some y =>
      obtain ⟨tag, after⟩ := y
      have hrv : (headAt (r ++ v)).isSome := by
        rw [headAt_extend hh v]; simp
      have : (findHead s).isSome := by
        have hs2 : s = (u ++ l) ++ (r ++ v) := by
          rw [huv, hlr]
          simp [List.append_assoc]
        rw [hs2]
        exact findHead_isSome_of_headAt (u ++ l) (r ++ v) hrv
      rw [h] at this
      simp at this

/-- With no match anywhere, the match scan returns the whole subject as
leading text, whatever the fuel. -/
theorem scanHeadsF_of_none {s : List Char} (h : findHead s = none) :
    ∀ fuel : Nat, scanHeadsF fuel s = (s, []) := by
  intro fuel
  cases fuel with
  | zero => rfl
  | succ f =>
    unfold scanHeadsF
    rw [h]

/-- C7: `chunk_html` on empty input produces no chunks; on any non-empty
document with no heading-tag match it produces exactly one chunk — the
trimmed document — whose heading text is the empty string, regardless of
word count. -/
theorem c7_no_heading_single_chunk :
    chunk_html "" = [] ∧
    ∀ html : String, html.data ≠ [] → findHead html.data = none →
      chunk_html html = [("", String.mk (trimL html.data))] := by
  constructor
  · rfl
  · intro html hne hnone
    have hscan : scanHeads html.data = (html.data, []) := by
      rw [scanHeads, scanHeadsF_of_none hnone]
    have htrim : findHead (trimL html.data) = none := findHead_trimL_eq_none hnone
    have hextract : extractFirstHeading (trimL html.data) = [] := by
      rw [extractFirstHeading, htrim]
    simp only [chunk_html, hscan, chunkGo, if_neg hne, mergeShort, hextract,
      List.map_cons, List.map_nil]

/-- Witness for C7: `just text` has no heading tag and yields the single
chunk with empty heading text. -/
theorem c7_witness :
    chunk_html "just text" = [("", "just text")] :=
  c7_no_heading_single_chunk.2 "just text" (by decide) (by decide)

/-- If the chunking loop defers every candidate it evaluates, it emits
nothing until the flush, which emits exactly the accumulated space-joined
candidate. -/
theorem chunkGo_all_deferred :
    ∀ (toks : List (List Char × List Char)) (current : List Char)
      (short : Option (List Char)) (j : List Char),
      allDeferred toks current short = true →
      accumJoin toks current short = some j →
      chunkGo toks current short = [(extractFirstHeading j, j)] := by
  intro toks
  induction toks with
  | nil =>
    intro current short j _ hj
    by_cases hc : current = []
    · subst hc
      simp only [accumJoin, if_pos rfl] at hj
      cases short with
      | none => simp at hj
      | some s =>
        injection hj with hj
        subst hj
        simp [chunkGo]
    · simp only [accumJoin, if_neg hc, Option.some.injEq] at hj
      subst hj
      simp [chunkGo, if_neg hc, hc]
  | cons t rest ih =>
    intro current short j hall hj
    by_cases hc : current = []
    · subst hc
      simp only [allDeferred, if_pos rfl] at hall
      simp only [accumJoin, if_pos rfl] at hj
      simp only [chunkGo, if_pos rfl]
      exact ih _ _ _ hall hj
    · simp only [allDeferred, if_neg hc, Bool.and_eq_true, decide_eq_true_eq] at hall
      obtain ⟨hwc, hall2⟩ := hall
      simp only [accumJoin, if_neg hc] at hj
      simp only [chunkGo, if_neg hc]
      rw [if_neg (by omega)]
      exact ih _ _ _ hall2 hj

/-- C8 counterexample: in `a b c<h1>d e f</h1><h2>x</h2>` every
heading-delimited fragment has at most 5 plain-text words (3, 3, and 1), yet
`chunk_html` emits two chunks, not one: the carry-forward merge pushes the
second evaluated candidate past the threshold. -/
theorem c8_counterexample :
    scanHeads ("a b c<h1>d e f</h1><h2>x</h2>").data =
      (("a b c").data,
        [(("<h1>").data, ("d e f</h1>").data), (("<h2>").data, ("x</h2>").data)]) ∧
    wordCount (("a b c").data) ≤ 5 ∧
    wordCount (("<h1>d e f</h1>").data) ≤ 5 ∧
    wordCount (("<h2>x</h2>").data) ≤ 5 ∧
    chunk_html "a b c<h1>d e f</h1><h2>x</h2>" =
      [("d e f", "a b c <h1>d e f</h1>"), ("x", "<h2>x</h2>")] := by
  refine ⟨by decide, by decide, by decide, by decide, by decide⟩

/-- C8 (amended): when every candidate the loop evaluates — each
heading-delimited fragment together with any deferred short carry merged into
it — has at most 5 plain-text words, `chunk_html` emits exactly one chunk at
end of input: the space-joined accumulation of all the deferred fragments,
headed by its first heading's text. -/
theorem c8_amended_all_short_single_chunk (html : String) (j : List Char)
    (hall : allDeferred (scanHeads html.data).2 (scanHeads html.data).1 none = true)
    (hj : accumJoin (scanHeads html.data).2 (scanHeads html.data).1 none = some j) :
    chunk_html html = [(String.mk (extractFirstHeading j), String.mk j)] := by
  simp only [chunk_html]
  rw [chunkGo_all_deferred _ _ _ _ hall hj]
  rfl

/-- Witness for C8 (amended) on the spec's example input
`<h1>A</h1>hi<h2>B</h2>ok`: one chunk, the space-joined accumulation, headed
by `A`. -/
theorem c8_witness :
    chunk_html "<h1>A</h1>hi<h2>B</h2>ok" = [("A", "<h1>A</h1>hi <h2>B</h2>ok")] :=
  c8_amended_all_short_single_chunk "<h1>A</h1>hi<h2>B</h2>ok"
    ("<h1>A</h1>hi <h2>B</h2>ok").data (by decide) (by decide)

/-- C9: the input `<h1>A</h1>one two three four five six<h2>B</h2>hi` yields
exactly the two chunks — the first span emitted immediately (its plain-text
word count exceeds 5), the trailing two-word span flushed at end of input. -/
theorem c9_long_then_short_example :
    chunk_html "<h1>A</h1>one two three four five six<h2>B</h2>hi" =
      [("A", "<h1>A</h1>one two three four five six"), ("B", "<h2>B</h2>hi")] := by
  decide

/-- C6: a successful `crawl` persists a row with status Pending and
`next_crawl_at = now`, interval Daily→24h, Weekly→7d, Monthly→30d (default
Daily), owned by the dataset, and returns that row's job id; the id is the
reserved all-zero id exactly when `scrape_options` selects the feed-based
(Shopify) mode — in which case the provider's outcome is never consulted
(`p2` arbitrary). The hypothesis that a consulted provider never hands out
the nil id reflects the provider minting real job ids. -/
theorem c6_submit_crawl (opts : CrawlOptions) (provider p2 : Except String Uuid)
    (persistOk : Bool) (dsid freshId : Uuid) (now : Nat) (sid : Uuid)
    (req : CrawlRequest)
    (hprov : ∀ u, provider = .ok u → u ≠ nilUuid)
    (h : crawl opts provider persistOk dsid freshId now = .ok (sid, req)) :
    req.status = .Pending ∧ req.next_crawl_at = now ∧ req.dataset_id = dsid ∧
    req.interval = (match opts.interval with
      | some .Daily => 60 * 60 * 24
      | some .Weekly => 60 * 60 * 24 * 7
      | some .Monthly => 60 * 60 * 24 * 30
      | none => 60 * 60 * 24) ∧
    sid = req.scrape_id ∧
    (sid = nilUuid ↔ opts.scrape_options = some .Shopify) ∧
    (opts.scrape_options = some .Shopify →
      crawl opts p2 persistOk dsid freshId now =
        crawl opts provider persistOk dsid freshId now) := by
  cases persistOk with
  | false =>
    exfalso
    cases hso : opts.scrape_options with
    | none =>
      cases provider with
      | error e => simp [crawl, hso] at h
      | ok u => simp [crawl, hso] at h
    | some so =>
      cases so with
      | Shopify => simp [crawl, hso] at h
      | Other =>
        cases provider with
        | error e => simp [crawl, hso] at h
        | ok u => simp [crawl, hso] at h
  | true =>
    cases hso : opts.scrape_options with
    | none =>
      simp only [crawl, hso, if_true] at h
      cases provider with
      | error e => simp at h
      | ok u =>
        simp only [Except.ok.injEq, Prod.mk.injEq] at h
        obtain ⟨hsid, hreq⟩ := h
        subst hsid
        subst hreq
        have hne := hprov u rfl
        simp [create_crawl_request, hso, hne]
    | some so =>
      cases so with
      | Shopify =>
        simp only [crawl, hso, if_true] at h
        simp only [Except.ok.injEq, Prod.mk.injEq] at h
        obtain ⟨hsid, hreq⟩ := h
        subst hsid
        subst hreq
        refine ⟨rfl, rfl, rfl, rfl, rfl, by simp [hso, create_crawl_request], ?_⟩
        intro _
        simp [crawl, hso]
      | Other =>
        simp only [crawl, hso, if_true] at h
        cases provider with
        | error e => simp at h
        | ok u =>
          simp only [Except.ok.injEq, Prod.mk.injEq] at h
          obtain ⟨hsid, hreq⟩ := h
          subst hsid
          subst hreq
          have hne := hprov u rfl
          simp [create_crawl_request, hso, hne]

/-- Options selecting the feed-based (Shopify) mode with a weekly interval. -/
def wOpts : CrawlOptions :=
  { site_url := some "https://s.example", interval := some .Weekly,
    scrape_options := some .Shopify }

/-- Witness for C6: feed-based options get the nil job id even from a failing
provider (which is never consulted), status Pending, `next_crawl_at = now`,
weekly interval. -/
theorem c6_witness :
    (create_crawl_request wOpts "d1" nilUuid "f1" 5).1.status = CrawlStatus.Pending ∧
    (create_crawl_request wOpts "d1" nilUuid "f1" 5).1.next_crawl_at = 5 ∧
    (create_crawl_request wOpts "d1" nilUuid "f1" 5).1.dataset_id = "d1" ∧
    (create_crawl_request wOpts "d1" nilUuid "f1" 5).1.interval = 60 * 60 * 24 * 7 ∧
    nilUuid = (create_crawl_request wOpts "d1" nilUuid "f1" 5).1.scrape_id ∧
    (nilUuid = nilUuid ↔ wOpts.scrape_options = some ScrapeOptions.Shopify) ∧
    (wOpts.scrape_options = some ScrapeOptions.Shopify →
      crawl wOpts (Except.ok "x") true "d1" "f1" 5 =
        crawl wOpts (Except.error "down") true "d1" "f1" 5) :=
  c6_submit_crawl wOpts (Except.error "down") (Except.ok "x") true "d1" "f1" 5 nilUuid
    (create_crawl_request wOpts "d1" nilUuid "f1" 5).1
    (fun _ hu => Except.noConfusion hu) rfl

end TrieveCrawl
